import Mathlib

/-!
Verification development for the ventilator operator-console GUI (`gui.py`).

The Python source is shallowly embedded: Python/NumPy floats are modelled as
rationals (`ℚ`), Qt spin-box values as integers (`ℤ`, QSpinBox stores ints),
fallible Python operations as `Except PyError`.  Qt/pyqtgraph behaviour that
the source relies on is modelled per the toolkits' documented semantics:
`QSpinBox.setValue` clamps to the configured range and emits `valueChanged`
only when the stored value actually changes; `InfiniteLine.setPos` emits
`sigPositionChanged` only when the position actually changes; signal emission
calls the connected slots synchronously, in connection order.
-/

/-- Errors raised by the embedded Python fragments. -/
inductive PyError where
  | zeroDivision : PyError
  | indexError : PyError
deriving DecidableEq

/-- Python `a % b` on floats: raises `ZeroDivisionError` on `b = 0`, otherwise
`a - b * ⌊a / b⌋` (result has the sign of `b`). -/
def pymod (a b : ℚ) : Except PyError ℚ :=
  if b = 0 then .error .zeroDivision else .ok (a - b * ⌊a / b⌋)

/-- NumPy `np.mod` on float arrays is total (it yields NaN on a zero divisor
instead of raising); for a nonzero divisor it agrees with Python `%`. -/
def npmod (a b : ℚ) : ℚ :=
  a - b * ⌊a / b⌋

/-- Python `round(q)` (and NumPy rounding): round half to even, to an integer. -/
def roundHalfEven (q : ℚ) : ℤ :=
  let f := ⌊q⌋
  let r := q - f
  if r < 1/2 then f
  else if 1/2 < r then f + 1
  else if f % 2 = 0 then f else f + 1

/-- NumPy `np.round(v, d)`: round half to even at `d` decimal places. -/
def np_round (v : ℚ) (d : ℕ) : ℚ :=
  (roundHalfEven (v * 10 ^ d) : ℚ) / 10 ^ d

/-- Qt `QSpinBox.setValue`: the value is clamped (`qBound`) to the box's
configured `[lo, hi]` range before being stored. -/
def qspinbox_clamp (lo hi v : ℤ) : ℤ :=
  max lo (min hi v)

namespace Display_Value

/-- State of one `Display_Value` widget (gui.py lines 265-400): the spin boxes
`min_safe`/`max_safe` (ints, range `[abs_lo, abs_hi]`), the attached
`RangeSlider`'s `_low`/`_high` attributes, the stashed current reading
`value` (`None` before the first `update_value`), the alarm flag mirrored on
the slider, the style sheet currently set on the value label, the count of
`alarm` signal emissions, and the last text written to the value label
(kept as the rounded rational that was formatted). -/
structure State where
  abs_lo : ℤ
  abs_hi : ℤ
  min_safe : ℤ
  max_safe : ℤ
  slider_low : ℤ
  slider_high : ℤ
  value : Option ℚ
  slider_alarm : Bool
  label_alarm_style : Bool
  alarms_emitted : ℕ
  label_text : Option ℚ
  decimals : ℕ
deriving DecidableEq

/-- Embeds `Display_Value.check_alarm` (gui.py 392-400).  The guard `if self.value:`
is Python truthiness: it skips the whole evaluation when `value` is `None`
or equals `0`.  Otherwise the alarm fires iff
`value >= max_safe.value() or value <= min_safe.value()`. -/
def check_alarm (s : State) : State :=
  match s.value with
  | none => s
  | some v =>
    if v = 0 then s
    else if (s.max_safe : ℚ) ≤ v ∨ v ≤ (s.min_safe : ℚ) then
      { s with alarms_emitted := s.alarms_emitted + 1,
               label_alarm_style := true,
               slider_alarm := true }
    else
      { s with label_alarm_style := false,
               slider_alarm := false }

/-- Embeds `Display_Value.timed_update` (gui.py 379-385), minus the self-rescheduling
timer: under the same truthiness guard `if self.value:`, format the value
rounded to `decimals` places and write it to the value label. -/
def timed_update (s : State) : State :=
  match s.value with
  | none => s
  | some v =>
    if v = 0 then s
    else { s with label_text := some (np_round v s.decimals) }

/-- Embeds `Display_Value.update_limits` (gui.py 373-377) together with the signal
wiring of `init_ui` (gui.py 327-337).  Steps, in source order:
`range_slider.setLow(new_limits[0])` and `setHigh(new_limits[1])` (plain
attribute writes, no signal), then `update_boxes(new_limits)` which calls
`min_safe.setValue` and then `max_safe.setValue`.  Each `setValue` clamps to
the box's `[abs_lo, abs_hi]` range and, when the stored value changes, emits
`valueChanged`, whose connected slots run in connection order:
`range_slider.setLow`/`setHigh` (line 330-331), then `_limits_changed`
(line 336-337), which runs `check_alarm` and emits
`limits_changed((min_safe.value(), max_safe.value()))`.
Returns the final state and the list of `limits_changed` payloads emitted. -/
def update_limits (s : State) (new_limits : ℤ × ℤ) : State × List (ℤ × ℤ) :=
  let s0 := { s with slider_low := new_limits.1, slider_high := new_limits.2 }
  let v1 := qspinbox_clamp s0.abs_lo s0.abs_hi new_limits.1
  let s1 :=
    if v1 ≠ s0.min_safe then check_alarm { s0 with min_safe := v1, slider_low := v1 }
    else s0
  let out1 : List (ℤ × ℤ) :=
    if v1 ≠ s0.min_safe then [(s1.min_safe, s1.max_safe)] else []
  let v2 := qspinbox_clamp s1.abs_lo s1.abs_hi new_limits.2
  let s2 :=
    if v2 ≠ s1.max_safe then check_alarm { s1 with max_safe := v2, slider_high := v2 }
    else s1
  let out2 : List (ℤ × ℤ) :=
    if v2 ≠ s1.max_safe then [(s2.min_safe, s2.max_safe)] else []
  (s2, out1 ++ out2)

end Display_Value

/-- Embeds `collections.deque(maxlen=maxlen).append(x)`: append on the right, and
when the deque exceeds `maxlen` discard from the left so only the `maxlen`
most recent elements remain. -/
def dequeAppend (maxlen : ℕ) (buf : List ℚ) (x : ℚ) : List ℚ :=
  let b := buf ++ [x]
  if maxlen < b.length then b.drop (b.length - maxlen) else b

/-- A sequence of `deque.append` calls, oldest first. -/
def dequePushAll (maxlen : ℕ) (buf : List ℚ) (xs : List ℚ) : List ℚ :=
  xs.foldl (dequeAppend maxlen) buf

/-- Embeds `np.where(np.diff(ts) < 0)[0][0]` (gui.py 796): the first index `i` with
`ts[i+1] < ts[i]`, or `none` when no adjacent pair descends (in the source
the missing case surfaces as an `IndexError` caught on line 802). -/
def findResetIdx : List ℚ → Option ℕ
  | a :: b :: rest =>
    if b < a then some 0 else (findResetIdx (b :: rest)).map (· + 1)
  | _ => none

/-- Lines 795-804 of `Plot.update_value`: split the in-window wrapped
timestamps and values into the `early_curve` data
(`[0:reset_ind+1]`) and `late_curve` data (`[reset_ind+1:]`); when no reset
index exists the `IndexError` handler plots everything on the early curve
and clears the late curve. -/
def segmentCurves (plot_timestamps plot_values : List ℚ) :
    (List ℚ × List ℚ) × (List ℚ × List ℚ) :=
  match findResetIdx plot_timestamps with
  | some reset_ind =>
    ((plot_timestamps.take (reset_ind + 1), plot_values.take (reset_ind + 1)),
     (plot_timestamps.drop (reset_ind + 1), plot_values.drop (reset_ind + 1)))
  | none => ((plot_timestamps, plot_values), ([], []))

namespace Plot

/-- Default `buffer_size` of `Plot.__init__` (gui.py 716). -/
def buffer_size_default : ℕ := 4092

/-- State of one `Plot` widget (gui.py 712-816): the two bounded deques
`timestamps` and `history`, the integer `plot_duration`, `_start_time`, the
x-axis range set by `setXRange`, the positions of the two movable
`InfiniteLine`s `min_safe`/`max_safe`, the data last handed to the three
curves, and the time-marker position. -/
structure State where
  buffer_size : ℕ
  plot_duration : ℤ
  start_time : ℚ
  timestamps : List ℚ
  history : List ℚ
  x_range : ℚ × ℚ
  min_safe : ℚ
  max_safe : ℚ
  early_curve : List ℚ × List ℚ
  late_curve : List ℚ × List ℚ
  time_marker : ℚ
deriving DecidableEq

/-- Embeds `Plot.set_duration` (gui.py 766-768): store `int(round(dur))` and reset
the x-axis range to `[0, plot_duration]`. -/
def set_duration (p : State) (dur : ℚ) : State :=
  { p with plot_duration := roundHalfEven dur,
           x_range := (0, (roundHalfEven dur : ℚ)) }

/-- Embeds `Plot.update_value` (gui.py 771-806).  In source order:
`current_relative_time = (this_time - _start_time) % plot_duration` (Python
`%`, raising `ZeroDivisionError` when `plot_duration` is 0), move the time
marker there, append `new_value` to both deques,
`start_ind = np.where(ts_array > this_time - plot_duration)[0][0]` (an
uncaught `IndexError` when no timestamp lies in the window), wrap the
timestamps from `start_ind` on with `np.mod` (total; `plot_duration ≠ 0`
here because line 778 already raised otherwise), and split the curves at the
reset index (the only step whose `IndexError` is caught). -/
def update_value (p : State) (this_time : ℚ) (new_value : ℚ × ℚ) :
    Except PyError State :=
  match pymod (this_time - p.start_time) (p.plot_duration : ℚ) with
  | .error e => .error e
  | .ok current_relative_time =>
    let timestamps := dequeAppend p.buffer_size p.timestamps new_value.1
    let history := dequeAppend p.buffer_size p.history new_value.2
    match timestamps.findIdx? (fun t => this_time - (p.plot_duration : ℚ) < t) with
    | none => .error .indexError
    | some start_ind =>
      let plot_timestamps :=
        (timestamps.drop start_ind).map
          (fun t => npmod (t - p.start_time) (p.plot_duration : ℚ))
      let plot_values := history.drop start_ind
      let curves := segmentCurves plot_timestamps plot_values
      .ok { p with timestamps := timestamps,
                   history := history,
                   time_marker := current_relative_time,
                   early_curve := curves.1,
                   late_curve := curves.2 }

/-- Embeds `Plot.set_safe_limits` (gui.py 813-816) with the pyqtgraph wiring of
`__init__` (gui.py 753-756).  `max_safe.setPos(limits[1])` then
`min_safe.setPos(limits[0])`; `InfiniteLine.setPos` emits
`sigPositionChanged` only when the position actually changes, and the
connected `_safe_limits_changed` slot (gui.py 808-811) re-emits
`limits_changed((min_safe.value(), max_safe.value()))`.  Returns the final
state and the list of `limits_changed` payloads emitted. -/
def set_safe_limits (p : State) (limits : ℚ × ℚ) : State × List (ℚ × ℚ) :=
  let p1 := if limits.2 ≠ p.max_safe then { p with max_safe := limits.2 } else p
  let out1 : List (ℚ × ℚ) :=
    if limits.2 ≠ p.max_safe then [(p1.min_safe, p1.max_safe)] else []
  let p2 := if limits.1 ≠ p1.min_safe then { p1 with min_safe := limits.1 } else p1
  let out2 : List (ℚ × ℚ) :=
    if limits.1 ≠ p1.min_safe then [(p2.min_safe, p2.max_safe)] else []
  (p2, out1 ++ out2)

end Plot

namespace RangeSlider

/-- State of the `RangeSlider` relevant to `mouseMoveEvent` (gui.py 642-684):
the two handle values `_low`/`_high`, the Qt slider bounds
`minimum()`/`maximum()`, `click_offset`, and `active_slider`
(0 = low handle, 1 = high handle, negative = drag both). -/
structure State where
  low : ℚ
  high : ℚ
  minimum : ℚ
  maximum : ℚ
  click_offset : ℚ
  active_slider : ℤ
deriving DecidableEq

/-- Embeds `RangeSlider.mouseMoveEvent` (gui.py 642-684), given the already-computed
`new_pos = __pixelPosToRangeValue(__pick(event.pos()))`.  Dragging both
handles shifts them by the offset and shifts back inside
`[minimum, maximum]`; dragging the low handle replaces `new_pos` by the old
low when `new_pos >= high`; dragging the high handle replaces it by the old
high when `new_pos <= low`.  `valueChanged((low, high))` is emitted iff the
pair changed.  Returns the new state and the emitted payloads. -/
def mouseMoveEvent (s : State) (new_pos : ℚ) : State × List (ℚ × ℚ) :=
  let s1 :=
    if s.active_slider < 0 then
      let offset := new_pos - s.click_offset
      let high1 := s.high + offset
      let low1 := s.low + offset
      let low2 := if low1 < s.minimum then low1 + (s.minimum - low1) else low1
      let high2 := if low1 < s.minimum then high1 + (s.minimum - low1) else high1
      let low3 := if high2 > s.maximum then low2 + (s.maximum - high2) else low2
      let high3 := if high2 > s.maximum then high2 + (s.maximum - high2) else high2
      { s with low := low3, high := high3, click_offset := new_pos }
    else if s.active_slider = 0 then
      let new_pos2 := if new_pos ≥ s.high then s.low else new_pos
      { s with low := new_pos2, click_offset := new_pos2 }
    else
      let new_pos2 := if new_pos ≤ s.low then s.high else new_pos
      { s with high := new_pos2, click_offset := new_pos2 }
  let emits :=
    if s.low ≠ s1.low ∨ s.high ≠ s1.high then [(s1.low, s1.high)] else []
  (s1, emits)

end RangeSlider

section RingBuffer

/-- Helper: a run of bounded-deque appends keeps exactly the most recent
`maxlen` elements of everything ever appended. -/
theorem dequePushAll_eq_drop (maxlen : ℕ) (xs : List ℚ) :
    ∀ (buf : List ℚ), buf.length ≤ maxlen →
      dequePushAll maxlen buf xs =
        (buf ++ xs).drop (buf.length + xs.length - maxlen) := by
  induction xs with
  | nil =>
    intro buf h
    simp only [dequePushAll, List.foldl_nil, List.append_nil, List.length_nil,
      Nat.add_zero]
    rw [Nat.sub_eq_zero_of_le h, List.drop_zero]
  | cons x xs ih =>
    intro buf h
    have hstep : dequePushAll maxlen buf (x :: xs)
        = dequePushAll maxlen (dequeAppend maxlen buf x) xs := rfl
    rw [hstep]
    by_cases hc : buf.length = maxlen
    · have hda : dequeAppend maxlen buf x = (buf ++ [x]).drop 1 := by
        simp only [dequeAppend, List.length_append, List.length_cons,
          List.length_nil]
        rw [if_pos (by omega)]
        congr 1
        omega
      have hlen : ((buf ++ [x]).drop 1).length = maxlen := by
        simp only [List.length_drop, List.length_append, List.length_cons,
          List.length_nil]
        omega
      rw [hda, ih _ (le_of_eq hlen), hlen]
      rw [List.drop_append_of_le_length (by simp) |>.symm, List.drop_drop]
      have hl : buf ++ x :: xs = (buf ++ [x]) ++ xs := by
        rw [List.append_assoc]
        rfl
      rw [hl]
      congr 1
      simp only [List.length_cons]
      omega
    · have hlt : buf.length < maxlen := lt_of_le_of_ne h hc
      have hda : dequeAppend maxlen buf x = buf ++ [x] := by
        simp only [dequeAppend, List.length_append, List.length_cons,
          List.length_nil]
        rw [if_neg (by omega)]
      rw [hda, ih _ (by simp only [List.length_append, List.length_cons,
        List.length_nil]; omega)]
      have hl : buf ++ x :: xs = (buf ++ [x]) ++ xs := by
        rw [List.append_assoc]
        rfl
      rw [hl]
      congr 1
      simp only [List.length_append, List.length_cons, List.length_nil]
      omega

end RingBuffer

/-- C3: after any sequence of `N` pushes into a bounded time-series deque of
capacity `C` (the `Plot` buffers, default capacity 4092), the buffer holds
exactly the `min N C` most recent samples in original relative push order
(it equals the pushed list with its oldest `N - C` elements dropped), and
when `N > C` the oldest retained sample is the `(N - C)`-th pushed sample
(0-indexed). -/
theorem ring_buffer_min_recent (C : ℕ) (xs : List ℚ) :
    dequePushAll C [] xs = xs.drop (xs.length - C) ∧
    (dequePushAll C [] xs).length = min xs.length C ∧
    (C < xs.length →
      (dequePushAll C [] xs).head? = xs[xs.length - C]?) ∧
    Plot.buffer_size_default = 4092 := by
  have hmain := dequePushAll_eq_drop C xs [] (by simp)
  simp only [List.nil_append, List.length_nil, Nat.zero_add] at hmain
  refine ⟨hmain, ?_, ?_, rfl⟩
  · rw [hmain, List.length_drop]
    omega
  · intro _
    rw [hmain, List.head?_drop]

/-- C3 witness: three pushes into a capacity-2 buffer keep the last two
samples, and the oldest retained one is the `(3 - 2)`-th pushed sample. -/
theorem ring_buffer_min_recent_witness :
    dequePushAll 2 [] [10, 20, 30] = [20, 30] ∧
    (dequePushAll 2 [] [10, 20, 30]).length = 2 ∧
    (dequePushAll 2 [] [10, 20, 30]).head? = some 20 := by
  have h := ring_buffer_min_recent 2 [10, 20, 30]
  refine ⟨by simpa using h.1, by simpa using h.2.1, ?_⟩
  have h3 := h.2.2.1 (by simp)
  simpa using h3

/-- C8: `Plot.set_duration` leaves all stored historical data (the
`timestamps` and `history` buffers) and every other piece of plot state
unchanged except the stored wrap period `plot_duration`, which becomes
`int(round(dur))`, and the x-axis extent, which becomes `[0, int(round(dur))]`. -/
theorem set_duration_preserves_history (p : Plot.State) (d : ℚ) :
    (Plot.set_duration p d).timestamps = p.timestamps ∧
    (Plot.set_duration p d).history = p.history ∧
    (Plot.set_duration p d).start_time = p.start_time ∧
    (Plot.set_duration p d).buffer_size = p.buffer_size ∧
    (Plot.set_duration p d).min_safe = p.min_safe ∧
    (Plot.set_duration p d).max_safe = p.max_safe ∧
    (Plot.set_duration p d).early_curve = p.early_curve ∧
    (Plot.set_duration p d).late_curve = p.late_curve ∧
    (Plot.set_duration p d).time_marker = p.time_marker ∧
    (Plot.set_duration p d).plot_duration = roundHalfEven d ∧
    (Plot.set_duration p d).x_range = (0, (roundHalfEven d : ℚ)) := by
  refine ⟨rfl, rfl, rfl, rfl, rfl, rfl, rfl, rfl, rfl, rfl, rfl⟩

/-- Concrete `Display_Value` state with a stored reading of exactly `0` and a
safe band whose lower bound is `0` (as for a channel with
`safe_range = (0, 100)`), alarm currently clear. -/
def dvZero : Display_Value.State :=
  { abs_lo := 0, abs_hi := 100, min_safe := 0, max_safe := 100,
    slider_low := 0, slider_high := 100, value := some 0,
    slider_alarm := false, label_alarm_style := false,
    alarms_emitted := 0, label_text := none, decimals := 1 }

/-- C1 counterexample: with stored value `0` and `safe_low = 0` the claimed
condition `value <= safe_low` holds, so the claim demands `Violated`; but
`check_alarm` runs under the guard `if self.value:` which is false for `0`,
so the alarm stays clear and no alarm signal is emitted. -/
theorem check_alarm_zero_value_counterexample :
    dvZero.value = some 0 ∧
    ((0 : ℚ) ≤ (dvZero.min_safe : ℚ)) ∧
    (Display_Value.check_alarm dvZero).slider_alarm = false ∧
    (Display_Value.check_alarm dvZero).label_alarm_style = false ∧
    (Display_Value.check_alarm dvZero).alarms_emitted = 0 := by
  refine ⟨rfl, by norm_num [dvZero], ?_, ?_, ?_⟩ <;>
    simp [Display_Value.check_alarm, dvZero]

/-- C1 (amended): for every stored *nonzero* current value `v` and safe band
read from the spin boxes, `check_alarm` sets the alarm state to `Violated`
exactly when `v >= safe_high` or `v <= safe_low` (boundaries inclusive) and
to `Normal` when `safe_low < v < safe_high`; the resulting alarm flag, label
style and signal emission are a pure function of
`(v, safe_low, safe_high)` alone.  (The original claim, quantifying over
every stored value, fails at `v = 0`: the `if self.value:` truthiness guard
skips the evaluation entirely.) -/
theorem check_alarm_violated_iff_nonzero (s : Display_Value.State) (v : ℚ)
    (hv : s.value = some v) (h0 : v ≠ 0) :
    ((Display_Value.check_alarm s).slider_alarm
        = decide ((s.max_safe : ℚ) ≤ v ∨ v ≤ (s.min_safe : ℚ))) ∧
    ((Display_Value.check_alarm s).label_alarm_style
        = decide ((s.max_safe : ℚ) ≤ v ∨ v ≤ (s.min_safe : ℚ))) ∧
    ((Display_Value.check_alarm s).alarms_emitted
        = s.alarms_emitted
            + (if (s.max_safe : ℚ) ≤ v ∨ v ≤ (s.min_safe : ℚ) then 1 else 0)) := by
  by_cases hcond : (s.max_safe : ℚ) ≤ v ∨ v ≤ (s.min_safe : ℚ) <;>
    simp [Display_Value.check_alarm, hv, h0, hcond]

/-- C1 witness: value 55 against safe band (60, 100) is `Violated`
(one alarm emission), as the end-to-end scenario of the spec demands. -/
theorem check_alarm_violated_iff_nonzero_witness :
    (Display_Value.check_alarm
      { dvZero with value := some 55, min_safe := 60 }).slider_alarm = true ∧
    (Display_Value.check_alarm
      { dvZero with value := some 55, min_safe := 60 }).alarms_emitted = 1 := by
  have h := check_alarm_violated_iff_nonzero
    { dvZero with value := some 55, min_safe := 60 } 55 rfl (by norm_num)
  refine ⟨?_, ?_⟩
  · rw [h.1]
    norm_num [dvZero]
  · rw [h.2.2]
    norm_num [dvZero]

/-- C9: when the stored value is `0` or no value has been stored yet
(`None`), `check_alarm` performs no evaluation at all — the whole widget
state, including the alarm flag, the label style and the alarm-emission
count, is left untouched — and `timed_update` likewise leaves the displayed
label text (and everything else) unchanged. -/
theorem falsy_value_skips_evaluation (s : Display_Value.State)
    (h : s.value = some 0 ∨ s.value = none) :
    Display_Value.check_alarm s = s ∧ Display_Value.timed_update s = s := by
  rcases h with h | h <;>
    simp [Display_Value.check_alarm, Display_Value.timed_update, h]

/-- C9 witness: the concrete zero-reading state is left entirely unchanged
by both `check_alarm` and `timed_update`. -/
theorem falsy_value_skips_evaluation_witness :
    Display_Value.check_alarm dvZero = dvZero ∧
    Display_Value.timed_update dvZero = dvZero :=
  falsy_value_skips_evaluation dvZero (Or.inl rfl)

/-- Helper: when `findResetIdx` returns `d`, then `d` is the first index at
which the sequence descends (`ts[d+1] < ts[d]`, all earlier adjacent pairs
non-descending). -/
theorem findResetIdx_first_descent (ts : List ℚ) :
    ∀ (d : ℕ), findResetIdx ts = some d →
      (∃ a b, ts[d]? = some a ∧ ts[d + 1]? = some b ∧ b < a) ∧
      (∀ i, i < d → ∀ a b, ts[i]? = some a → ts[i + 1]? = some b → a ≤ b) := by
  induction ts with
  | nil => intro d h; simp [findResetIdx] at h
  | cons a tl ih =>
    cases tl with
    | nil => intro d h; simp [findResetIdx] at h
    | cons b rest =>
      intro d h
      rw [findResetIdx] at h
      by_cases hba : b < a
      · rw [if_pos hba] at h
        obtain rfl : (0 : ℕ) = d := by simpa using h
        refine ⟨⟨a, b, rfl, by simp, hba⟩, ?_⟩
        intro i hi
        omega
      · rw [if_neg hba] at h
        obtain ⟨d', hd', hsum⟩ : ∃ d', findResetIdx (b :: rest) = some d' ∧ d' + 1 = d := by
          cases hfr : findResetIdx (b :: rest) with
          | none => rw [hfr] at h; simp at h
          | some k => rw [hfr] at h; exact ⟨k, rfl, by simpa using h⟩
        subst hsum
        obtain ⟨hdesc, hmono⟩ := ih d' hd'
        refine ⟨?_, ?_⟩
        · obtain ⟨x, y, hx, hy, hlt⟩ := hdesc
          exact ⟨x, y, by simpa using hx, by simpa using hy, hlt⟩
        · intro i hi x y hx hy
          cases i with
          | zero =>
            have hxa : x = a := by simpa using hx.symm
            have hyb : y = b := by simpa using hy.symm
            subst hxa; subst hyb
            exact le_of_not_lt hba
          | succ j =>
            exact hmono j (by omega) x y (by simpa using hx) (by simpa using hy)

/-- Helper: a sequence with no adjacent descent has no reset index. -/
theorem findResetIdx_eq_none (ts : List ℚ)
    (h : ∀ i a b, ts[i]? = some a → ts[i + 1]? = some b → a ≤ b) :
    findResetIdx ts = none := by
  induction ts with
  | nil => rfl
  | cons a tl ih =>
    cases tl with
    | nil => rfl
    | cons b rest =>
      rw [findResetIdx]
      have hab : a ≤ b := h 0 a b rfl (by simp)
      rw [if_neg (by exact not_lt.mpr hab)]
      have hrec := ih (fun i x y hx hy =>
        h (i + 1) x y (by simpa using hx) (by simpa using hy))
      rw [hrec]
      rfl

/-- C2: when the in-window wrapped timestamps contain a descent, the renderer
splits them at the first index `d` with `wrapped_t[d+1] < wrapped_t[d]`:
the `early_curve` gets samples `[0, d]` and the `late_curve` gets samples
`(d, end]`, two disconnected polylines; and whenever no adjacent descent
exists the early curve gets every sample and the late curve is empty. -/
theorem wrap_segmentation_first_descent (ts vals : List ℚ) (d : ℕ)
    (hd : findResetIdx ts = some d) :
    (∃ a b, ts[d]? = some a ∧ ts[d + 1]? = some b ∧ b < a) ∧
    (∀ i, i < d → ∀ a b, ts[i]? = some a → ts[i + 1]? = some b → a ≤ b) ∧
    segmentCurves ts vals
      = ((ts.take (d + 1), vals.take (d + 1)),
         (ts.drop (d + 1), vals.drop (d + 1))) ∧
    (∀ ts2 vals2 : List ℚ,
      (∀ i a b, ts2[i]? = some a → ts2[i + 1]? = some b → a ≤ b) →
      segmentCurves ts2 vals2 = ((ts2, vals2), ([], []))) := by
  obtain ⟨hdesc, hmono⟩ := findResetIdx_first_descent ts d hd
  refine ⟨hdesc, hmono, ?_, ?_⟩
  · rw [segmentCurves, hd]
  · intro ts2 vals2 h2
    rw [segmentCurves, findResetIdx_eq_none ts2 h2]

/-- C2 witness: the spec's example — wrapped times
`[0.1, 0.3, 0.6, 0.9, 0.05, 0.2]` (duration 1.0) — has its discontinuity at
index 3→4, so segment A is the first 4 points and segment B the last 2. -/
theorem wrap_segmentation_first_descent_witness :
    segmentCurves [1/10, 3/10, 6/10, 9/10, 1/20, 1/5] [1, 2, 3, 4, 5, 6]
      = (([1/10, 3/10, 6/10, 9/10], [1, 2, 3, 4]), ([1/20, 1/5], [5, 6])) := by
  have h := (wrap_segmentation_first_descent
    [1/10, 3/10, 6/10, 9/10, 1/20, 1/5] [1, 2, 3, 4, 5, 6] 3
    (by norm_num [findResetIdx])).2.2.1
  simpa using h

/-- Concrete `Plot` state: default capacity, `plot_duration = 5`,
`_start_time = 0`, empty buffers, default safe lines (20, 80). -/
def plotEmpty : Plot.State :=
  { buffer_size := 4092, plot_duration := 5, start_time := 0,
    timestamps := [], history := [], x_range := (0, 5),
    min_safe := 20, max_safe := 80,
    early_curve := ([], []), late_curve := ([], []), time_marker := 0 }

/-- C4 (code bug): on a previously empty buffer, pushing a sample whose
timestamp (0) does not exceed `now - duration` (10 - 5 = 5) leaves
`np.where(ts_array > this_time - plot_duration)[0]` empty, and the
`[0]` subscript on line 788 raises an uncaught `IndexError` instead of
rendering an empty frame: the render step does not complete. -/
theorem empty_window_raises_index_error :
    Plot.update_value plotEmpty 10 (0, 1) = .error .indexError := by
  norm_num [Plot.update_value, plotEmpty, pymod, dequeAppend, List.findIdx?]

/-- C10 counterexample: the claim says every `d < 0.5` stores duration `0`,
but `set_duration(-3)` stores `int(round(-3)) = -3`, not `0`. -/
theorem set_duration_negative_counterexample :
    ((-3 : ℚ) < 1/2) ∧
    (Plot.set_duration plotEmpty (-3)).plot_duration = -3 ∧
    (Plot.set_duration plotEmpty (-3)).plot_duration ≠ 0 := by
  refine ⟨by norm_num, ?_, ?_⟩ <;>
    norm_num [Plot.set_duration, plotEmpty, roundHalfEven,
      Int.floor_intCast]

/-- Helper: Python's `round` (half to even) sends `d` to `0` exactly on the
closed interval `[-1/2, 1/2]`. -/
theorem roundHalfEven_eq_zero_iff (d : ℚ) :
    roundHalfEven d = 0 ↔ (-(1/2) ≤ d ∧ d ≤ 1/2) := by
  have hf1 : (⌊d⌋ : ℚ) ≤ d := Int.floor_le d
  have hf2 : d < ⌊d⌋ + 1 := Int.lt_floor_add_one d
  rw [show roundHalfEven d
      = (if d - ⌊d⌋ < 1/2 then ⌊d⌋
         else if 1/2 < d - ⌊d⌋ then ⌊d⌋ + 1
         else if ⌊d⌋ % 2 = 0 then ⌊d⌋ else ⌊d⌋ + 1) from rfl]
  split_ifs with h1 h2 h3
  · constructor
    · intro h0
      rw [h0] at hf1 h1
      push_cast at hf1 h1
      constructor <;> linarith
    · rintro ⟨ha, hb⟩
      have hd0 : (0 : ℚ) ≤ d := by
        by_contra hneg
        push_neg at hneg
        have hfl : ⌊d⌋ = -1 := by
          rw [Int.floor_eq_iff]
          push_cast
          constructor <;> linarith
        rw [hfl] at h1
        push_cast at h1
        linarith
      rw [Int.floor_eq_zero_iff]
      exact Set.mem_Ico.mpr ⟨hd0, by linarith⟩
  · constructor
    · intro h0
      have hfl : ⌊d⌋ = -1 := by omega
      rw [hfl] at hf1 hf2 h2
      push_cast at hf1 hf2 h2
      constructor <;> linarith
    · rintro ⟨ha, hb⟩
      have hub : ⌊d⌋ ≤ 0 := by
        by_contra hc
        push_neg at hc
        have : (1 : ℚ) ≤ (⌊d⌋ : ℚ) := by exact_mod_cast hc
        linarith
      have hlb : -1 ≤ ⌊d⌋ := Int.le_floor.mpr (by push_cast; linarith)
      have hne : ⌊d⌋ ≠ 0 := by
        intro hc
        rw [hc] at h2
        push_cast at h2
        linarith
      omega
  · have hr : d - ⌊d⌋ = 1/2 := le_antisymm (not_lt.mp h2) (not_lt.mp h1)
    constructor
    · intro h0
      rw [h0] at hr
      push_cast at hr
      constructor <;> linarith
    · rintro ⟨ha, hb⟩
      have hub : ⌊d⌋ ≤ 0 := by
        by_contra hc
        push_neg at hc
        have : (1 : ℚ) ≤ (⌊d⌋ : ℚ) := by exact_mod_cast hc
        linarith
      have hlb : -1 ≤ ⌊d⌋ := Int.le_floor.mpr (by push_cast; linarith)
      omega
  · have hr : d - ⌊d⌋ = 1/2 := le_antisymm (not_lt.mp h2) (not_lt.mp h1)
    constructor
    · intro h0
      have hfl : ⌊d⌋ = -1 := by omega
      rw [hfl] at hr
      push_cast at hr
      constructor <;> linarith
    · rintro ⟨ha, hb⟩
      have hub : ⌊d⌋ ≤ 0 := by
        by_contra hc
        push_neg at hc
        have : (1 : ℚ) ≤ (⌊d⌋ : ℚ) := by exact_mod_cast hc
        linarith
      have hlb : -1 ≤ ⌊d⌋ := Int.le_floor.mpr (by push_cast; linarith)
      omega

/-- C10 (amended): `set_duration(d)` stores `int(round(d))` (round half to
even) as the plot duration.  The stored duration is `0` exactly when
`-0.5 <= d <= 0.5` (equivalently, `round(d) = 0`) — not for every
`d < 0.5`: `set_duration(-3)` stores `-3`.  Whenever the stored duration is
`0`, every subsequent `Plot.update_value` call raises `ZeroDivisionError`
at the wrapped-time computation
`(this_time - _start_time) % plot_duration`; and for a negative stored
duration every `update_value` call whose sample timestamps do not exceed
`now` raises `IndexError` (the look-back window `now - duration` lies
entirely in the future), so the renderer is total only under the
precondition `round(d) >= 1`. -/
theorem set_duration_zero_breaks_renderer (p : Plot.State) (d : ℚ)
    (hd : roundHalfEven d = 0) :
    (Plot.set_duration p d).plot_duration = 0 ∧
    (-(1/2) ≤ d ∧ d ≤ 1/2) ∧
    (∀ (p2 : Plot.State) (e : ℚ), -(1/2) ≤ e → e ≤ 1/2 →
      (Plot.set_duration p2 e).plot_duration = 0) ∧
    (∀ (q : Plot.State), q.plot_duration = 0 →
      ∀ (now : ℚ) (nv : ℚ × ℚ),
        Plot.update_value q now nv = .error .zeroDivision) ∧
    (∀ (q : Plot.State), q.plot_duration < 0 →
      ∀ (now : ℚ) (nv : ℚ × ℚ), nv.1 ≤ now →
        (∀ t ∈ q.timestamps, t ≤ now) →
        Plot.update_value q now nv = .error .indexError) := by
  refine ⟨by simp [Plot.set_duration, hd],
    (roundHalfEven_eq_zero_iff d).mp hd, ?_, ?_, ?_⟩
  · intro p2 e he1 he2
    simp [Plot.set_duration, (roundHalfEven_eq_zero_iff e).mpr ⟨he1, he2⟩]
  · intro q hq now nv
    simp [Plot.update_value, hq, pymod]
  · intro q hq now nv hnv hts
    have hne : (q.plot_duration : ℚ) ≠ 0 := by
      exact_mod_cast (by omega : q.plot_duration ≠ 0)
    have hneg : (q.plot_duration : ℚ) < 0 := by exact_mod_cast hq
    have hfind : (dequeAppend q.buffer_size q.timestamps nv.1).findIdx?
        (fun t => decide (now - (q.plot_duration : ℚ) < t)) = none := by
      rw [List.findIdx?_eq_none_iff]
      intro x hx
      have hx2 : x ∈ q.timestamps ++ [nv.1] := by
        simp only [dequeAppend] at hx
        split_ifs at hx
        · exact List.mem_of_mem_drop hx
        · exact hx
      have hxle : x ≤ now := by
        rcases List.mem_append.mp hx2 with h | h
        · exact hts x h
        · have hxe : x = nv.1 := by simpa using h
          rw [hxe]
          exact hnv
      simp only [decide_eq_false_iff_not, not_lt]
      linarith
    simp [Plot.update_value, pymod, hne, hfind]

/-- C10 witness: `set_duration(0.3)` stores duration `0`, and the next
`update_value` call raises `ZeroDivisionError`. -/
theorem set_duration_zero_breaks_renderer_witness :
    (Plot.set_duration plotEmpty (3/10)).plot_duration = 0 ∧
    Plot.update_value (Plot.set_duration plotEmpty (3/10)) 1 (1, 1)
      = .error .zeroDivision := by
  have h := set_duration_zero_breaks_renderer plotEmpty (3/10)
    (by norm_num [roundHalfEven])
  exact ⟨h.1, h.2.2.2.1 _ h.1 1 (1, 1)⟩

/-- Helper: `check_alarm` never touches the spin-box values or the absolute
bounds; it only changes the alarm flag, the label style and the emission
count. -/
theorem check_alarm_preserves_limit_fields (s : Display_Value.State) :
    (Display_Value.check_alarm s).min_safe = s.min_safe ∧
    (Display_Value.check_alarm s).max_safe = s.max_safe ∧
    (Display_Value.check_alarm s).abs_lo = s.abs_lo ∧
    (Display_Value.check_alarm s).abs_hi = s.abs_hi := by
  rcases hv : s.value with _ | v
  · simp [Display_Value.check_alarm, hv]
  · simp only [Display_Value.check_alarm, hv]
    split_ifs <;> simp

/-- Concrete `Display_Value` state in a consistent configuration: absolute
range (0, 100), safe band (20, 80) agreed between the spin boxes and the
slider, no stored reading. -/
def dvSync : Display_Value.State :=
  { abs_lo := 0, abs_hi := 100, min_safe := 20, max_safe := 80,
    slider_low := 20, slider_high := 80, value := none,
    slider_alarm := false, label_alarm_style := false,
    alarms_emitted := 0, label_text := none, decimals := 1 }

/-- C5 counterexample: applying a received notification `(30, 70)` through
the dedicated apply entry point `Display_Value.update_limits` re-triggers
the `limits_changed` broadcast — twice, in fact, once per spin box whose
value changes (the first payload `(30, 80)` even carries a half-updated
band), because `update_boxes` drives `QSpinBox.setValue`, whose
`valueChanged` signal is wired straight back into `_limits_changed`. -/
theorem update_limits_rebroadcast_counterexample :
    (Display_Value.update_limits dvSync (30, 70)).2 = [(30, 80), (30, 70)] ∧
    (Display_Value.update_limits dvSync (30, 70)).2 ≠ [] := by
  refine ⟨?_, ?_⟩ <;>
    simp [Display_Value.update_limits, dvSync, qspinbox_clamp,
      Display_Value.check_alarm]

/-- C5 (amended): the apply entry points do re-trigger `limits_changed`
broadcasts whenever the applied limits differ from the surface's current
ones — `Display_Value.update_limits` stays silent exactly when both clamped
spin values already equal the current ones, and `Plot.set_safe_limits` stays
silent exactly when both line positions are already at the applied values —
so propagation cycles terminate through Qt's value-equality check inside
`setValue`/`setPos`, not through origin-exclusion. -/
theorem apply_rebroadcast_iff_value_change (s : Display_Value.State)
    (nl : ℤ × ℤ) (p : Plot.State) (l : ℚ × ℚ) :
    ((Display_Value.update_limits s nl).2 = [] ↔
      (qspinbox_clamp s.abs_lo s.abs_hi nl.1 = s.min_safe ∧
       qspinbox_clamp s.abs_lo s.abs_hi nl.2 = s.max_safe)) ∧
    ((Plot.set_safe_limits p l).2 = [] ↔
      (l.2 = p.max_safe ∧ l.1 = p.min_safe)) := by
  constructor
  · by_cases h1 : qspinbox_clamp s.abs_lo s.abs_hi nl.1 = s.min_safe
    · by_cases h2 : qspinbox_clamp s.abs_lo s.abs_hi nl.2 = s.max_safe
      · simp [Display_Value.update_limits, h1, h2]
      · simp [Display_Value.update_limits, h1, h2]
    · simp [Display_Value.update_limits, h1]
  · by_cases h1 : l.2 = p.max_safe
    · by_cases h2 : l.1 = p.min_safe
      · simp [Plot.set_safe_limits, h1, h2]
      · simp [Plot.set_safe_limits, h1, h2]
    · simp [Plot.set_safe_limits, h1]

/-- Concrete `RangeSlider` state: handles at (20, 80) inside bounds
(0, 100), with the low handle grabbed (`active_slider = 0`). -/
def sliderC : RangeSlider.State :=
  { low := 20, high := 80, minimum := 0, maximum := 100,
    click_offset := 0, active_slider := 0 }

/-- C6 counterexample: dragging the low handle to 90, above the high handle
at 80, leaves the stored range at (20, 80) — the violating bound is reset
to its *previous* value, not clamped to equal the other bound, so afterwards
`low ≠ high`, contradicting the claimed clamp law `low == high`. -/
theorem slider_cross_counterexample :
    sliderC.low < sliderC.high ∧ (90 : ℚ) > sliderC.high ∧
    (RangeSlider.mouseMoveEvent sliderC 90).1.low = 20 ∧
    (RangeSlider.mouseMoveEvent sliderC 90).1.high = 80 ∧
    (RangeSlider.mouseMoveEvent sliderC 90).1.low ≠
      (RangeSlider.mouseMoveEvent sliderC 90).1.high := by
  refine ⟨by norm_num [sliderC], by norm_num [sliderC], ?_, ?_, ?_⟩ <;>
    norm_num [RangeSlider.mouseMoveEvent, sliderC]

/-- C6 (amended): a handle move that meets or crosses the other bound
(`new_pos >= high` for the low handle, `new_pos <= low` for the high handle)
is rejected rather than clamped: the moved bound keeps its previous value,
the stored range is unchanged, no `valueChanged` is emitted, and the bounds
are never reordered. -/
theorem handle_cross_rejected (s : RangeSlider.State) (new_pos : ℚ)
    (h : (s.active_slider = 0 ∧ s.high ≤ new_pos) ∨
         (s.active_slider = 1 ∧ new_pos ≤ s.low)) :
    (RangeSlider.mouseMoveEvent s new_pos).1.low = s.low ∧
    (RangeSlider.mouseMoveEvent s new_pos).1.high = s.high ∧
    (RangeSlider.mouseMoveEvent s new_pos).2 = [] := by
  rcases h with ⟨ha, hge⟩ | ⟨ha, hle⟩
  · have hnot : ¬ s.active_slider < 0 := by omega
    simp [RangeSlider.mouseMoveEvent, hnot, ha, ge_iff_le, hge]
  · have hnot : ¬ s.active_slider < 0 := by omega
    have hne : s.active_slider ≠ 0 := by omega
    simp [RangeSlider.mouseMoveEvent, hnot, ha, hne, hle]

/-- C6 witness: the counterexample drag (low handle to 90 against high 80)
satisfies the amended statement — range unchanged, nothing emitted. -/
theorem handle_cross_rejected_witness :
    (RangeSlider.mouseMoveEvent sliderC 90).1.low = sliderC.low ∧
    (RangeSlider.mouseMoveEvent sliderC 90).1.high = sliderC.high ∧
    (RangeSlider.mouseMoveEvent sliderC 90).2 = [] :=
  handle_cross_rejected sliderC 90 (Or.inl ⟨rfl, by norm_num [sliderC]⟩)

/-- C7 counterexample: starting from a consistent state
(abs (0,100), safe (20,80)), applying the notification `(90, 80)` through
`Display_Value.update_limits` stores `safe_low = 90 > safe_high = 80` in
both the spin boxes and the slider: the ordering invariant
`safe_low <= safe_high` does not hold after this safe-range write, because
the notification path never compares the two bounds. -/
theorem update_limits_ordering_violation :
    dvSync.abs_lo ≤ dvSync.min_safe ∧
    dvSync.min_safe ≤ dvSync.max_safe ∧
    dvSync.max_safe ≤ dvSync.abs_hi ∧
    (Display_Value.update_limits dvSync (90, 80)).1.min_safe = 90 ∧
    (Display_Value.update_limits dvSync (90, 80)).1.max_safe = 80 ∧
    ¬ ((Display_Value.update_limits dvSync (90, 80)).1.min_safe ≤
       (Display_Value.update_limits dvSync (90, 80)).1.max_safe) ∧
    ¬ ((Display_Value.update_limits dvSync (90, 80)).1.slider_low ≤
       (Display_Value.update_limits dvSync (90, 80)).1.slider_high) := by
  refine ⟨by norm_num [dvSync], by norm_num [dvSync], by norm_num [dvSync],
    ?_, ?_, ?_, ?_⟩ <;>
    simp [Display_Value.update_limits, dvSync, qspinbox_clamp,
      Display_Value.check_alarm]

/-- C7 (amended): the slider's own mouse-move path does maintain the
ordering invariant — for any handle move with the reported position inside
the absolute bounds (as `__pixelPosToRangeValue` guarantees), starting from
a state satisfying `minimum <= low <= high <= maximum`, the state after
`mouseMoveEvent` still satisfies it, and the bounds themselves are
untouched.  (The invariant is *not* enforced by the notification-application
writes `update_limits`/`set_safe_limits`, which store out-of-order bands
as-is.) -/
theorem mouse_move_preserves_invariant (s : RangeSlider.State) (new_pos : ℚ)
    (h1 : s.minimum ≤ s.low) (h2 : s.low ≤ s.high) (h3 : s.high ≤ s.maximum)
    (h4 : s.minimum ≤ new_pos) (h5 : new_pos ≤ s.maximum) :
    (RangeSlider.mouseMoveEvent s new_pos).1.minimum = s.minimum ∧
    (RangeSlider.mouseMoveEvent s new_pos).1.maximum = s.maximum ∧
    s.minimum ≤ (RangeSlider.mouseMoveEvent s new_pos).1.low ∧
    (RangeSlider.mouseMoveEvent s new_pos).1.low ≤
      (RangeSlider.mouseMoveEvent s new_pos).1.high ∧
    (RangeSlider.mouseMoveEvent s new_pos).1.high ≤ s.maximum := by
  simp only [RangeSlider.mouseMoveEvent]
  split_ifs <;> simp_all <;> (repeat' apply And.intro) <;> linarith

/-- C7 witness: moving the grabbed low handle of the concrete slider to 50
keeps `0 <= low <= high <= 100`. -/
theorem mouse_move_preserves_invariant_witness :
    (RangeSlider.mouseMoveEvent sliderC 50).1.minimum = sliderC.minimum ∧
    (RangeSlider.mouseMoveEvent sliderC 50).1.maximum = sliderC.maximum ∧
    sliderC.minimum ≤ (RangeSlider.mouseMoveEvent sliderC 50).1.low ∧
    (RangeSlider.mouseMoveEvent sliderC 50).1.low ≤
      (RangeSlider.mouseMoveEvent sliderC 50).1.high ∧
    (RangeSlider.mouseMoveEvent sliderC 50).1.high ≤ sliderC.maximum :=
  mouse_move_preserves_invariant sliderC 50 (by norm_num [sliderC])
    (by norm_num [sliderC]) (by norm_num [sliderC]) (by norm_num [sliderC])
    (by norm_num [sliderC])
